import Mathlib

/-!
Shallow embedding of the Uno game engine in `src/game.rs`
(repository RustUnoDemo): card model, infinite random deck,
lobby, and the game state machine, together with theorems
checking the specification's claims against these definitions.

Randomness is modelled by threading an explicit stream of raw
samples: an `InfiniteDeck` carries a function `sample : Nat → Nat`
(the successive outputs of the underlying RNG) and a position.
`Uniform::new_inclusive(0, 107)` is modelled by reducing each raw
sample modulo 108, so every drawn seed lies in `[0, 107]` exactly
as in the source. Mutation is modelled by state passing; a Rust
panic (index out of bounds, `Option::unwrap` on `None`) is
modelled by an outer `Option` returning `none`.
-/

namespace Uno

/-- `Color` from src/game.rs. -/
inductive Color where
  | Red
  | Green
  | Blue
  | Yellow
  | Unpicked
deriving DecidableEq, Repr

/-- `CardType` from src/game.rs. The `u8` payload of `Number` is modelled
as a `Nat` (the deck only ever produces values 0–9). -/
inductive CardType where
  | Number (n : Nat)
  | Skip
  | Reverse
  | DrawTwo
  | Wildcard
  | DrawFourWildcard
deriving DecidableEq, Repr

/-- `Card` from src/game.rs. -/
structure Card where
  card_type : CardType
  color : Color
deriving DecidableEq, Repr

/-- `Card::is_playable_on` from src/game.rs, lines 80–97: `self` is the
candidate being offered, `card` is the current top card. -/
def Card.is_playable_on (self : Card) (card : Card) : Bool :=
  match self.card_type, card.card_type with
  | CardType.Wildcard, _ => true
  | CardType.DrawFourWildcard, _ => true
  | CardType.Skip, CardType.Skip => true
  | CardType.Reverse, CardType.Reverse => true
  | CardType.DrawTwo, CardType.DrawTwo => true
  | CardType.Number value1, CardType.Number value2 =>
      -- the Rust match guard `if value1 == value2`; on failure control
      -- falls through to the catch-all color comparison
      if value1 = value2 then true else decide (self.color = card.color)
  | _, _ => decide (self.color = card.color)

/-- `InfiniteDeck` from src/game.rs: the RNG is modelled by the stream
`sample` of its successive raw outputs together with the current
position `pos` in that stream. -/
structure InfiniteDeck where
  sample : Nat → Nat
  pos : Nat

/-- The body of `InfiniteDeck::draw` mapping one uniform sample
`card_seed ∈ [0, 107]` to a card (src/game.rs, lines 127–156). For
seeds ≤ 107 the quotient `card_seed / 27` is at most 3, so the final
catch-all of the color match (the source's `unreachable!()` arm) is
never taken. -/
def InfiniteDeck.drawCard (card_seed : Nat) : Card :=
  let card_type : CardType :=
    if card_seed % 27 = 0 then CardType.Number 0
    else if card_seed % 27 ≤ 9 then CardType.Number (card_seed % 27)
    else if card_seed % 27 ≤ 18 then CardType.Number (card_seed % 27 - 9)
    else if card_seed % 27 ≤ 20 then CardType.Skip
    else if card_seed % 27 ≤ 22 then CardType.Reverse
    else if card_seed % 27 ≤ 24 then CardType.DrawTwo
    else if card_seed % 27 = 25 then CardType.Wildcard
    else CardType.DrawFourWildcard
  let color : Color :=
    match card_type with
    | CardType.Wildcard => Color.Unpicked
    | CardType.DrawFourWildcard => Color.Unpicked
    | _ =>
      match card_seed / 27 with
      | 0 => Color.Red
      | 1 => Color.Green
      | 2 => Color.Blue
      | _ => Color.Yellow
  Card.mk card_type color

/-- `InfiniteDeck::draw`: take the next raw RNG output, reduce it into
the sampling range `[0, 107]` of `Uniform::new_inclusive(0, 107)`, and
map it to a card; the generator state advances by one. -/
def InfiniteDeck.draw (d : InfiniteDeck) : Card × InfiniteDeck :=
  let card_seed := d.sample d.pos % 108
  (InfiniteDeck.drawCard card_seed, { d with pos := d.pos + 1 })

/-- The bucket layout of §4.2 of the spec, written independently as a
lookup table: card type from `seed % 27`, color from `seed / 27`,
forced to `Unpicked` on wildcards. Used to state C7 as a refinement. -/
def specBucketCard (seed : Nat) : Card :=
  let m := seed % 27
  let ty : CardType :=
    List.getD
      [CardType.Number 0, CardType.Number 1, CardType.Number 2, CardType.Number 3,
       CardType.Number 4, CardType.Number 5, CardType.Number 6, CardType.Number 7,
       CardType.Number 8, CardType.Number 9, CardType.Number 1, CardType.Number 2,
       CardType.Number 3, CardType.Number 4, CardType.Number 5, CardType.Number 6,
       CardType.Number 7, CardType.Number 8, CardType.Number 9, CardType.Skip,
       CardType.Skip, CardType.Reverse, CardType.Reverse, CardType.DrawTwo,
       CardType.DrawTwo, CardType.Wildcard, CardType.DrawFourWildcard]
      m CardType.Skip
  let co : Color :=
    if ty = CardType.Wildcard ∨ ty = CardType.DrawFourWildcard then Color.Unpicked
    else
      List.getD [Color.Red, Color.Green, Color.Blue, Color.Yellow]
        (seed / 27) Color.Unpicked
  Card.mk ty co

/-- The 54 well-shaped Uno cards: every number 0–9 and every
non-wild special type in each of the four real colors, plus the two
wildcard types with color `Unpicked`. -/
def validCards : List Card :=
  ([Color.Red, Color.Green, Color.Blue, Color.Yellow].flatMap fun c =>
    ((List.range 10).map fun n => Card.mk (CardType.Number n) c) ++
    [Card.mk CardType.Skip c, Card.mk CardType.Reverse c, Card.mk CardType.DrawTwo c]) ++
  [Card.mk CardType.Wildcard Color.Unpicked, Card.mk CardType.DrawFourWildcard Color.Unpicked]

/-- `Player` from src/game.rs: a name and an ordered hand of cards. -/
structure Player where
  name : String
  cards : List Card
deriving DecidableEq, Repr

/-- `Player::number_of_cards`. -/
def Player.number_of_cards (self : Player) : Nat :=
  self.cards.length

/-- The `NotEnoughPlayers` error struct. -/
inductive NotEnoughPlayers where
  | mk
deriving DecidableEq, Repr

/-- `PlayError` from src/game.rs. -/
inductive PlayError where
  | InvalidCardIndex
  | CardUnplayable
deriving DecidableEq, Repr

/-- `Lobby` from src/game.rs. -/
structure Lobby where
  players : List Player

/-- `Lobby::add_player`: registers the name with an empty hand when it is
not already taken; returns whether it succeeded, with the new lobby. -/
def Lobby.add_player (l : Lobby) (username : String) : Bool × Lobby :=
  let username_available := !(l.players.any fun player => player.name = username)
  if username_available then
    (username_available, { players := l.players ++ [Player.mk username []] })
  else
    (username_available, l)

/-- `Lobby::number_of_players`. -/
def Lobby.number_of_players (l : Lobby) : Nat :=
  l.players.length

/-- The free function `array_next_index` (src/game.rs, lines 243–249). -/
def array_next_index (index : Nat) (length : Nat) (reversed : Bool) : Nat :=
  if reversed then
    if index = 0 then length - 1 else index - 1
  else
    if index = length - 1 then 0 else index + 1

/-- `Game` from src/game.rs. `top_card: Option<Card>` is kept as an
`Option` exactly as in the source. -/
structure Game where
  players : List Player
  current_player_idx : Nat
  turn_direction_reversed : Bool
  deck : InfiniteDeck
  top_card : Option Card

/-- `Game::number_of_players`. -/
def Game.number_of_players (g : Game) : Nat :=
  g.players.length

/-- `Game::next_turn`. -/
def Game.next_turn (g : Game) : Game :=
  { g with current_player_idx :=
      array_next_index g.current_player_idx g.players.length g.turn_direction_reversed }

/-- `Game::turn_direction`. -/
def Game.turn_direction (g : Game) : String :=
  if g.turn_direction_reversed then "Counter Clockwise" else "Clockwise"

/-- `Game::reverse`: toggles the turn direction flag. -/
def Game.reverse (g : Game) : Game :=
  { g with turn_direction_reversed := !g.turn_direction_reversed }

/-- `Game::play` (src/game.rs, lines 338–354). The result is `none` when
the source would panic (current player index out of bounds, or the
`unwrap` of an unset top card reached with a valid card index); otherwise
`some (outcome, new state)`, the state being unmodified on either error
since the source mutates nothing before an early `?` return. -/
def Game.play (g : Game) (card_index : Nat) : Option (Except PlayError Unit × Game) :=
  match g.players[g.current_player_idx]? with
  | none => none
  | some player =>
    match player.cards[card_index]? with
    | none => some (Except.error PlayError.InvalidCardIndex, g)
    | some card =>
      match g.top_card with
      | none => none
      | some top =>
        if card.is_playable_on top then
          some (Except.ok (),
            { g with
                top_card := some card,
                players := g.players.set g.current_player_idx
                  { player with cards := player.cards.eraseIdx card_index } })
        else
          some (Except.error PlayError.CardUnplayable, g)

/-- `Game::draw_one` (src/game.rs, lines 356–368): draw a card; if it is
playable on the top card it becomes the new top card and `none` is
reported, otherwise it is appended to the current player's hand and
returned. The outer `Option` is `none` where the source would panic. -/
def Game.draw_one (g : Game) : Option (Option Card × Game) :=
  let (card, d') := g.deck.draw
  match g.top_card with
  | none => none
  | some top =>
    if card.is_playable_on top then
      some (none, { g with deck := d', top_card := some card })
    else
      match g.players[g.current_player_idx]? with
      | none => none
      | some player =>
        some (some card,
          { g with
              deck := d',
              players := g.players.set g.current_player_idx
                { player with cards := player.cards ++ [card] } })

/-- `InfiniteDeck::draw` iterated: the next `n` cards in draw order,
with the deck state after them. -/
def InfiniteDeck.drawN (d : InfiniteDeck) : Nat → List Card × InfiniteDeck
  | 0 => ([], d)
  | Nat.succ n =>
    let (card, d') := d.draw
    let (cards, d'') := d'.drawN n
    (card :: cards, d'')

/-- `Game::draw_multiple` (src/game.rs, lines 370–377): push
`number_of_cards` consecutive draws onto the current player's hand.
`none` where the source's indexing of the current player would panic. -/
def Game.draw_multiple (g : Game) (number_of_cards : Nat) : Option Game :=
  match g.players[g.current_player_idx]? with
  | none => none
  | some player =>
    let (cards, d') := g.deck.drawN number_of_cards
    some { g with
             deck := d',
             players := g.players.set g.current_player_idx
               { player with cards := player.cards ++ cards } }

/-- `Game::set_wildcard_color` (src/game.rs, lines 379–384): replace the
top card's color when its type is a wildcard type; no-op otherwise. -/
def Game.set_wildcard_color (g : Game) (color : Color) : Game :=
  match g.top_card with
  | some (Card.mk CardType.Wildcard _) =>
    { g with top_card := some (Card.mk CardType.Wildcard color) }
  | some (Card.mk CardType.DrawFourWildcard _) =>
    { g with top_card := some (Card.mk CardType.DrawFourWildcard color) }
  | _ => g

/-- The deal loop of `Game::start` (src/game.rs, lines 389–393): each
player in order receives 7 consecutive draws appended to their hand. -/
def dealAll (players : List Player) (d : InfiniteDeck) : List Player × InfiniteDeck :=
  match players with
  | [] => ([], d)
  | player :: rest =>
    ({ player with cards := player.cards ++ (d.drawN 7).1 } ::
       (dealAll rest (d.drawN 7).2).1,
     (dealAll rest (d.drawN 7).2).2)

/-- One round of the top-card `while` loop of `Game::start`: keep drawing
while the draw is a `DrawFourWildcard`. The loop of the source is
unbounded; `fuel` bounds the modelled iteration count, `none` meaning the
bound was hit before a suitable card appeared. -/
def drawTopCard (d : InfiniteDeck) : Nat → Option (Card × InfiniteDeck)
  | 0 => none
  | Nat.succ fuel =>
    let (card, d') := d.draw
    if card.card_type = CardType.DrawFourWildcard then drawTopCard d' fuel
    else some (card, d')

/-- The full `while let None | Some(DrawFourWildcard)` loop: an already
set, non-`DrawFourWildcard` top card is kept without drawing. -/
def topCardLoop (start : Option Card) (d : InfiniteDeck) (fuel : Nat) :
    Option (Card × InfiniteDeck) :=
  match start with
  | some card =>
    if card.card_type = CardType.DrawFourWildcard then drawTopCard d fuel
    else some (card, d)
  | none => drawTopCard d fuel

/-- `rand::thread_rng().gen_range(0..length)` as used on src/game.rs line
396, modelled by reducing one raw RNG output `r` modulo `length`. -/
def gen_range (r : Nat) (length : Nat) : Nat :=
  r % length

/-- The private `Game::start` (src/game.rs, lines 386–402): deal 7 cards
to each player in order, choose the starting player from the raw RNG
output `r`, then run the top-card loop with the given fuel. -/
def Game.start (g : Game) (r : Nat) (fuel : Nat) : Option Game :=
  let players' := (dealAll g.players g.deck).1
  let d' := (dealAll g.players g.deck).2
  let idx := gen_range r players'.length
  match topCardLoop g.top_card d' fuel with
  | none => none
  | some (top, d'') =>
    some { g with
             players := players',
             current_player_idx := idx,
             deck := d'',
             top_card := some top }

/-- `Lobby::start` (src/game.rs, lines 223–240): error with fewer than
two players, otherwise build the fresh game and run `Game::start`. -/
def Lobby.start (l : Lobby) (d : InfiniteDeck) (r : Nat) (fuel : Nat) :
    Except NotEnoughPlayers (Option Game) :=
  if l.players.length < 2 then
    Except.error NotEnoughPlayers.mk
  else
    let game : Game :=
      { players := l.players,
        current_player_idx := 0,
        turn_direction_reversed := false,
        deck := d,
        top_card := none }
    Except.ok (game.start r fuel)

/-- The mutating operations a driver can invoke on a live game. -/
inductive Op where
  | play (card_index : Nat)
  | draw_one
  | draw_multiple (number_of_cards : Nat)
  | next_turn
  | reverse
  | set_wildcard_color (color : Color)

/-- Apply one operation, propagating the panic marker `none`. -/
def applyOp (g : Game) : Op → Option Game
  | Op.play i => (g.play i).map Prod.snd
  | Op.draw_one => (g.draw_one).map Prod.snd
  | Op.draw_multiple n => g.draw_multiple n
  | Op.next_turn => some g.next_turn
  | Op.reverse => some g.reverse
  | Op.set_wildcard_color c => some (g.set_wildcard_color c)

/-- Run a sequence of operations from a state. -/
def runOps (g : Game) : List Op → Option Game
  | [] => some g
  | op :: rest =>
    match applyOp g op with
    | none => none
    | some g' => runOps g' rest

/-- `Game::next_turn` iterated `n` times. -/
def nextTurnIter (g : Game) : Nat → Game
  | 0 => g
  | Nat.succ n => nextTurnIter g.next_turn n

/-- The fixed three-player clockwise game of C9's concrete scenario. -/
def gameC9 : Game :=
  Game.mk [Player.mk "A" [], Player.mk "B" [], Player.mk "C" []]
    0 false (InfiniteDeck.mk (fun _ => 0) 0) none

/-- The frame left intact by the hand-mutating operations: acting player
index, turn direction, player count, player names in order, and every
non-current player's entry. -/
def frameIntact (g g' : Game) : Prop :=
  g'.current_player_idx = g.current_player_idx ∧
  g'.turn_direction_reversed = g.turn_direction_reversed ∧
  g'.players.length = g.players.length ∧
  (∀ j : Nat, j ≠ g.current_player_idx → g'.players[j]? = g.players[j]?) ∧
  (∀ j : Nat, (g'.players[j]?).map Player.name = (g.players[j]?).map Player.name)

/-- The deck state after skipping `n` raw samples. -/
def InfiniteDeck.after (d : InfiniteDeck) (n : Nat) : InfiniteDeck :=
  InfiniteDeck.mk d.sample (d.pos + n)

/-- The two-player lobby of the concrete start scenario. -/
def lobbyW : Lobby :=
  Lobby.mk [Player.mk "A" [], Player.mk "B" []]

/-- A deterministic deck whose RNG always outputs 0 (every draw is a Red
`Number 0`). -/
def deckW : InfiniteDeck :=
  InfiniteDeck.mk (fun _ => 0) 0

/-- The game produced by starting `lobbyW` on `deckW` with raw
starting-player sample 0 and one unit of loop fuel. -/
def gameW : Game :=
  match lobbyW.start deckW 0 1 with
  | Except.ok (some g) => g
  | _ => Game.mk [] 0 false deckW none

/-- The state after one `next_turn` and one `draw_one` in the concrete
started game `gameW`. -/
def gameW2 : Game :=
  match runOps gameW [Op.next_turn, Op.draw_one] with
  | some g => g
  | none => gameW

/-- C1: `is_playable_on` holds exactly on the disjunction of the wildcard,
matching-special-type, equal-number and color-match branches; and a
non-wildcard candidate with a picked color is never playable on a
wildcard top card whose color is still `Unpicked`. -/
theorem C1_is_playable_on_characterization :
    (∀ candidate reference : Card,
      candidate.is_playable_on reference = true ↔
        (candidate.card_type = CardType.Wildcard ∨
         candidate.card_type = CardType.DrawFourWildcard) ∨
        (candidate.card_type = CardType.Skip ∧ reference.card_type = CardType.Skip) ∨
        (candidate.card_type = CardType.Reverse ∧ reference.card_type = CardType.Reverse) ∨
        (candidate.card_type = CardType.DrawTwo ∧ reference.card_type = CardType.DrawTwo) ∨
        (∃ n, candidate.card_type = CardType.Number n ∧
              reference.card_type = CardType.Number n) ∨
        candidate.color = reference.color) ∧
    (∀ candidate reference : Card,
      candidate.card_type ≠ CardType.Wildcard →
      candidate.card_type ≠ CardType.DrawFourWildcard →
      (reference.card_type = CardType.Wildcard ∨
       reference.card_type = CardType.DrawFourWildcard) →
      reference.color = Color.Unpicked →
      candidate.color ≠ Color.Unpicked →
      candidate.is_playable_on reference = false) := by
  constructor
  · intro candidate reference
    obtain ⟨ct, cc⟩ := candidate
    obtain ⟨rt, rc⟩ := reference
    cases ct <;> cases rt <;> (simp [Card.is_playable_on]; try tauto)
  · intro candidate reference h1 h2 h3 h4 h5
    obtain ⟨ct, cc⟩ := candidate
    obtain ⟨rt, rc⟩ := reference
    simp only at h1 h2 h4 h5
    subst h4
    rcases h3 with h3 | h3 <;> subst h3 <;>
      cases ct <;> simp_all [Card.is_playable_on]

/-- Witness for C1 at a concrete pair: a Red `Skip` candidate is not
playable on an `Unpicked` `Wildcard` top card. -/
theorem C1_witness :
    (Card.mk CardType.Skip Color.Red).is_playable_on
      (Card.mk CardType.Wildcard Color.Unpicked) = false :=
  C1_is_playable_on_characterization.2
    (Card.mk CardType.Skip Color.Red)
    (Card.mk CardType.Wildcard Color.Unpicked)
    (by decide) (by decide) (Or.inl rfl) rfl (by decide)

/-- C7: on every raw sample in `[0, 107]`, `draw`'s seed-to-card mapping
agrees with the spec's bucket table, and the produced card is always one
of the 54 well-shaped cards: wildcards get color `Unpicked`, every other
type one of the four real colors, number values in `[0, 9]`. -/
theorem C7_draw_bucket_layout (seed : Nat) (hs : seed ≤ 107) :
    InfiniteDeck.drawCard seed = specBucketCard seed ∧
    InfiniteDeck.drawCard seed ∈ validCards := by
  interval_cases seed <;> decide

/-- Witness for C7 at seed 25: a `Wildcard` with color `Unpicked`. -/
theorem C7_witness :
    InfiniteDeck.drawCard 25 = specBucketCard 25 ∧
    InfiniteDeck.drawCard 25 = Card.mk CardType.Wildcard Color.Unpicked :=
  ⟨(C7_draw_bucket_layout 25 (by decide)).1, by decide⟩

/-- C3: playing an in-bounds, playable card succeeds: the card at index
`i` is removed (later cards shift down one position, i.e. the hand
becomes `take i ++ drop (i+1)`), the hand shrinks by exactly one, and
the played card becomes the new top card. -/
theorem C3_play_success (g : Game) (player : Player) (i : Nat) (card top : Card)
    (hp : g.players[g.current_player_idx]? = some player)
    (ht : g.top_card = some top)
    (hc : player.cards[i]? = some card)
    (hplay : card.is_playable_on top = true) :
    g.play i = some (Except.ok (),
      { g with
          top_card := some card,
          players := g.players.set g.current_player_idx
            (Player.mk player.name (player.cards.take i ++ player.cards.drop (i + 1))) }) ∧
    (player.cards.take i ++ player.cards.drop (i + 1)).length + 1 = player.cards.length := by
  have hlt : i < player.cards.length := (List.getElem?_eq_some_iff.mp hc).1
  constructor
  · simp only [Game.play, hp, hc, ht, hplay, if_true, List.eraseIdx_eq_take_drop_succ]
  · simp only [List.length_append, List.length_take, List.length_drop]
    omega

/-- Witness for C3: a one-card hand holding a Red `Number 5` played on a
Blue `Number 5` top card. -/
theorem C3_witness :
    ((Card.mk (CardType.Number 5) Color.Red).is_playable_on
        (Card.mk (CardType.Number 5) Color.Blue) = true) ∧
    (([Card.mk (CardType.Number 5) Color.Red].take 0 ++
        [Card.mk (CardType.Number 5) Color.Red].drop 1).length + 1 =
      [Card.mk (CardType.Number 5) Color.Red].length) :=
  ⟨by decide,
    (C3_play_success
      (Game.mk [Player.mk "A" [Card.mk (CardType.Number 5) Color.Red],
                Player.mk "B" [Card.mk (CardType.Number 0) Color.Red]]
        0 false (InfiniteDeck.mk (fun _ => 0) 0)
        (some (Card.mk (CardType.Number 5) Color.Blue)))
      (Player.mk "A" [Card.mk (CardType.Number 5) Color.Red])
      0 (Card.mk (CardType.Number 5) Color.Red) (Card.mk (CardType.Number 5) Color.Blue)
      rfl rfl rfl (by decide)).2⟩

/-- C4: an out-of-bounds index yields `InvalidCardIndex`, an in-bounds
but unplayable card yields `CardUnplayable`, and in both cases the
returned state is the unmodified input state. -/
theorem C4_play_errors (g : Game) (player : Player)
    (hp : g.players[g.current_player_idx]? = some player) :
    (∀ i, player.cards.length ≤ i →
       g.play i = some (Except.error PlayError.InvalidCardIndex, g)) ∧
    (∀ i card top, player.cards[i]? = some card → g.top_card = some top →
       card.is_playable_on top = false →
       g.play i = some (Except.error PlayError.CardUnplayable, g)) := by
  constructor
  · intro i hi
    simp only [Game.play, hp, List.getElem?_eq_none hi]
  · intro i card top hc ht hplay
    simp only [Game.play, hp, hc, ht, hplay, Bool.false_eq_true, if_false]

/-- Witness for C4: index 1 is out of bounds for a one-card hand. -/
theorem C4_witness :
    ([Card.mk (CardType.Number 5) Color.Red].length ≤ 1) ∧
    (Game.mk [Player.mk "A" [Card.mk (CardType.Number 5) Color.Red],
              Player.mk "B" []]
        0 false (InfiniteDeck.mk (fun _ => 0) 0)
        (some (Card.mk (CardType.Number 5) Color.Blue))).play 1 =
      some (Except.error PlayError.InvalidCardIndex,
        Game.mk [Player.mk "A" [Card.mk (CardType.Number 5) Color.Red],
                 Player.mk "B" []]
          0 false (InfiniteDeck.mk (fun _ => 0) 0)
          (some (Card.mk (CardType.Number 5) Color.Blue))) :=
  ⟨by decide,
    (C4_play_errors
      (Game.mk [Player.mk "A" [Card.mk (CardType.Number 5) Color.Red],
                Player.mk "B" []]
        0 false (InfiniteDeck.mk (fun _ => 0) 0)
        (some (Card.mk (CardType.Number 5) Color.Blue)))
      (Player.mk "A" [Card.mk (CardType.Number 5) Color.Red])
      rfl).1 1 (by decide)⟩

/-- C5: `draw_one` either auto-plays the freshly drawn card (hand
untouched, drawn card becomes top card, no card reported) or appends it
to the current player's hand (hand grows by exactly one, top card
untouched, card reported), the branch decided exactly by
`is_playable_on` of the drawn card against the top card. -/
theorem C5_draw_one (g : Game) (player : Player) (top : Card)
    (hp : g.players[g.current_player_idx]? = some player)
    (ht : g.top_card = some top) :
    ((g.deck.draw.1.is_playable_on top = true →
       g.draw_one = some (none,
         { g with deck := g.deck.draw.2, top_card := some g.deck.draw.1 })) ∧
     (g.deck.draw.1.is_playable_on top = false →
       g.draw_one = some (some g.deck.draw.1,
         { g with
             deck := g.deck.draw.2,
             players := g.players.set g.current_player_idx
               (Player.mk player.name (player.cards ++ [g.deck.draw.1])) })) ∧
     (player.cards ++ [g.deck.draw.1]).length = player.cards.length + 1) := by
  refine ⟨?_, ?_, by simp⟩
  · intro hplay
    unfold Game.draw_one
    rw [ht]
    simp only [hplay, if_true]
  · intro hplay
    unfold Game.draw_one
    rw [ht]
    simp only [hplay, Bool.false_eq_true, if_false, hp]

/-- Witness for C5: with the constant-zero RNG the drawn card is a Red
`Number 0`, unplayable on a Blue `Number 5`, so the hand grows by one. -/
theorem C5_witness :
    ((InfiniteDeck.mk (fun _ => 0) 0).draw.1.is_playable_on
        (Card.mk (CardType.Number 5) Color.Blue) = false) ∧
    (([] : List Card) ++ [(InfiniteDeck.mk (fun _ => 0) 0).draw.1]).length = 0 + 1 :=
  ⟨by decide,
    (C5_draw_one
      (Game.mk [Player.mk "A" [], Player.mk "B" []]
        0 false (InfiniteDeck.mk (fun _ => 0) 0)
        (some (Card.mk (CardType.Number 5) Color.Blue)))
      (Player.mk "A" []) (Card.mk (CardType.Number 5) Color.Blue)
      rfl rfl).2.2⟩

/-- With the direction not reversed, `array_next_index` is the successor
modulo the length. -/
theorem array_next_index_not_reversed (index length : Nat) (h : index < length) :
    array_next_index index length false = (index + 1) % length := by
  unfold array_next_index
  simp only [Bool.false_eq_true, if_false]
  by_cases he : index = length - 1
  · subst he
    rw [if_pos rfl, Nat.sub_add_cancel (by omega), Nat.mod_self]
  · have hlt : index + 1 < length := by omega
    simp [he, Nat.mod_eq_of_lt hlt]

/-- With the direction reversed, `array_next_index` is the predecessor
modulo the length, i.e. addition of `length - 1`. -/
theorem array_next_index_reversed (index length : Nat) (h : index < length) :
    array_next_index index length true = (index + (length - 1)) % length := by
  unfold array_next_index
  by_cases he : index = 0
  · have : length - 1 < length := by omega
    simp [he, Nat.mod_eq_of_lt this]
  · have harg : index + (length - 1) = (index - 1) + length := by omega
    have : index - 1 < length := by omega
    simp [he, harg, Nat.add_mod_right, Nat.mod_eq_of_lt this]

/-- Each `next_turn` step adds the direction-dependent stride
`1` or `length - 1` to the current index, modulo the player count; the
player list and direction are untouched by the iteration. -/
theorem nextTurnIter_spec (k : Nat) :
    ∀ g : Game, g.current_player_idx < g.players.length →
      (nextTurnIter g k).players = g.players ∧
      (nextTurnIter g k).turn_direction_reversed = g.turn_direction_reversed ∧
      (nextTurnIter g k).deck = g.deck ∧
      (nextTurnIter g k).top_card = g.top_card ∧
      (nextTurnIter g k).current_player_idx =
        (g.current_player_idx +
          k * (if g.turn_direction_reversed then g.players.length - 1 else 1)) %
          g.players.length := by
  induction k with
  | zero =>
    intro g hidx
    simp [nextTurnIter, Nat.mod_eq_of_lt hidx]
  | succ n ih =>
    intro g hidx
    have hpos : 0 < g.players.length := Nat.lt_of_le_of_lt (Nat.zero_le _) hidx
    have hstep : g.next_turn.current_player_idx =
        (g.current_player_idx +
          (if g.turn_direction_reversed then g.players.length - 1 else 1)) %
          g.players.length := by
      cases hrev : g.turn_direction_reversed with
      | false =>
        simpa [Game.next_turn, hrev] using
          array_next_index_not_reversed g.current_player_idx g.players.length hidx
      | true =>
        simpa [Game.next_turn, hrev] using
          array_next_index_reversed g.current_player_idx g.players.length hidx
    have hidx' : g.next_turn.current_player_idx < g.next_turn.players.length := by
      have : g.next_turn.players = g.players := rfl
      rw [this, hstep]
      exact Nat.mod_lt _ hpos
    obtain ⟨hpl, hrev, hdk, htc, hix⟩ := ih g.next_turn hidx'
    have hplg : g.next_turn.players = g.players := rfl
    have hrevg : g.next_turn.turn_direction_reversed = g.turn_direction_reversed := rfl
    refine ⟨by simpa [nextTurnIter, hplg] using hpl,
            by simpa [nextTurnIter, hrevg] using hrev,
            by simpa [nextTurnIter] using hdk,
            by simpa [nextTurnIter] using htc, ?_⟩
    show (nextTurnIter g.next_turn n).current_player_idx = _
    rw [hix, hplg, hrevg, hstep, Nat.mod_add_mod]
    congr 1
    cases g.turn_direction_reversed <;> simp [Nat.succ_mul] <;> omega

/-- C8: with `N ≥ 2` players and a valid current index, `N` calls of
`next_turn` return `current_player_idx` to its original value in either
direction, and a single call moves one step in the current direction,
wrapping circularly. -/
theorem C8_next_turn_cycle (g : Game)
    (hN : 2 ≤ g.players.length)
    (hidx : g.current_player_idx < g.players.length) :
    (nextTurnIter g g.players.length).current_player_idx = g.current_player_idx ∧
    (g.turn_direction_reversed = false →
       g.next_turn.current_player_idx = (g.current_player_idx + 1) % g.players.length) ∧
    (g.turn_direction_reversed = true →
       g.next_turn.current_player_idx =
         (g.current_player_idx + (g.players.length - 1)) % g.players.length) := by
  refine ⟨?_, ?_, ?_⟩
  · have h := (nextTurnIter_spec g.players.length g hidx).2.2.2.2
    rw [h, Nat.add_mul_mod_self_left, Nat.mod_eq_of_lt hidx]
  · intro hrev
    simpa [Game.next_turn, hrev] using
      array_next_index_not_reversed g.current_player_idx g.players.length hidx
  · intro hrev
    simpa [Game.next_turn, hrev] using
      array_next_index_reversed g.current_player_idx g.players.length hidx

/-- Witness for C8: a three-player clockwise game at index 0 returns to
index 0 after three turns. -/
theorem C8_witness :
    2 ≤ (Game.mk [Player.mk "A" [], Player.mk "B" [], Player.mk "C" []]
          0 false (InfiniteDeck.mk (fun _ => 0) 0) none).players.length ∧
    (nextTurnIter
      (Game.mk [Player.mk "A" [], Player.mk "B" [], Player.mk "C" []]
        0 false (InfiniteDeck.mk (fun _ => 0) 0) none)
      (Game.mk [Player.mk "A" [], Player.mk "B" [], Player.mk "C" []]
        0 false (InfiniteDeck.mk (fun _ => 0) 0) none).players.length).current_player_idx =
      (Game.mk [Player.mk "A" [], Player.mk "B" [], Player.mk "C" []]
        0 false (InfiniteDeck.mk (fun _ => 0) 0) none).current_player_idx :=
  ⟨by decide,
    (C8_next_turn_cycle
      (Game.mk [Player.mk "A" [], Player.mk "B" [], Player.mk "C" []]
        0 false (InfiniteDeck.mk (fun _ => 0) 0) none)
      (by decide) (by decide)).1⟩

/-- C9: `reverse` twice restores the turn direction on every state, and
in the concrete three-player clockwise game at index 0 one `next_turn`
reaches index 1, after which `reverse` followed by `next_turn` goes back
to index 0. -/
theorem C9_reverse_involution :
    (∀ g : Game, g.reverse.reverse.turn_direction_reversed = g.turn_direction_reversed) ∧
    gameC9.next_turn.current_player_idx = 1 ∧
    gameC9.next_turn.reverse.next_turn.current_player_idx = 0 := by
  refine ⟨fun g => ?_, rfl, rfl⟩
  simp [Game.reverse]

/-- A state whose player list replaces the current player's entry by one
with the same name, keeping index and direction, has its frame intact. -/
theorem frameIntact_set (g g' : Game) (player player' : Player)
    (hp : g.players[g.current_player_idx]? = some player)
    (hname : player'.name = player.name)
    (hidx : g'.current_player_idx = g.current_player_idx)
    (hrev : g'.turn_direction_reversed = g.turn_direction_reversed)
    (hpl : g'.players = g.players.set g.current_player_idx player') :
    frameIntact g g' := by
  refine ⟨hidx, hrev, by rw [hpl]; simp, ?_, ?_⟩
  · intro j hj
    rw [hpl]
    exact List.getElem?_set_ne (Ne.symm hj)
  · intro j
    rw [hpl]
    by_cases hj : j = g.current_player_idx
    · have hlt : g.current_player_idx < g.players.length :=
        (List.getElem?_eq_some_iff.mp hp).1
      rw [hj, List.getElem?_set_self hlt, hp]
      simp [hname]
    · rw [List.getElem?_set_ne (Ne.symm hj)]

/-- A state with the same player list, index and direction has its frame
intact. -/
theorem frameIntact_same (g g' : Game)
    (hidx : g'.current_player_idx = g.current_player_idx)
    (hrev : g'.turn_direction_reversed = g.turn_direction_reversed)
    (hpl : g'.players = g.players) :
    frameIntact g g' :=
  ⟨hidx, hrev, by rw [hpl], fun j _ => by rw [hpl], fun j => by rw [hpl]⟩

/-- The identity frame. -/
theorem frameIntact_refl (g : Game) : frameIntact g g :=
  ⟨rfl, rfl, rfl, fun _ _ => rfl, fun _ => rfl⟩

/-- `set_wildcard_color` is the identity when the top card is not a
wildcard type. -/
theorem set_wildcard_color_eq_of_not_wild (g : Game) (c : Color) (t : Card)
    (ht : g.top_card = some t)
    (h1 : t.card_type ≠ CardType.Wildcard)
    (h2 : t.card_type ≠ CardType.DrawFourWildcard) :
    g.set_wildcard_color c = g := by
  obtain ⟨ty, co⟩ := t
  cases ty <;>
    first
      | (exact absurd rfl h1)
      | (exact absurd rfl h2)
      | simp [Game.set_wildcard_color, ht]

/-- `set_wildcard_color` preserves the type of the top card. -/
theorem set_wildcard_color_top_type (g : Game) (c : Color) :
    ((g.set_wildcard_color c).top_card).map Card.card_type =
      (g.top_card).map Card.card_type := by
  cases ht : g.top_card with
  | none => simp [Game.set_wildcard_color, ht]
  | some t =>
    obtain ⟨ty, co⟩ := t
    cases ty <;> simp [Game.set_wildcard_color, ht]

/-- `set_wildcard_color` never touches the players, the acting index or
the direction. -/
theorem set_wildcard_color_players (g : Game) (c : Color) :
    (g.set_wildcard_color c).players = g.players ∧
    (g.set_wildcard_color c).current_player_idx = g.current_player_idx ∧
    (g.set_wildcard_color c).turn_direction_reversed = g.turn_direction_reversed := by
  cases ht : g.top_card with
  | none => simp [Game.set_wildcard_color, ht]
  | some t =>
    obtain ⟨ty, co⟩ := t
    cases ty <;> simp [Game.set_wildcard_color, ht]

/-- C10: `play`, `draw_one` and `draw_multiple` keep the acting player
index, the direction, the number, order and names of the players and
every non-current player's hand intact; `set_wildcard_color` keeps every
hand and the rest of the frame intact, preserves the top card's type,
and is the identity whenever the top card is not a wildcard type. -/
theorem C10_frame_effects (g : Game) :
    (∀ i res g', g.play i = some (res, g') → frameIntact g g') ∧
    (∀ res g', g.draw_one = some (res, g') → frameIntact g g') ∧
    (∀ n g', g.draw_multiple n = some g' → frameIntact g g') ∧
    (∀ c, (g.set_wildcard_color c).players = g.players ∧
          frameIntact g (g.set_wildcard_color c) ∧
          ((g.set_wildcard_color c).top_card).map Card.card_type =
            (g.top_card).map Card.card_type ∧
          (∀ t, g.top_card = some t →
             t.card_type ≠ CardType.Wildcard →
             t.card_type ≠ CardType.DrawFourWildcard →
             g.set_wildcard_color c = g)) := by
  refine ⟨?_, ?_, ?_, ?_⟩
  · intro i res g' h
    unfold Game.play at h
    cases hp : g.players[g.current_player_idx]? with
    | none => rw [hp] at h; cases h
    | some player =>
      rw [hp] at h
      simp only at h
      cases hc : player.cards[i]? with
      | none =>
        rw [hc] at h
        simp only [Option.some.injEq, Prod.mk.injEq] at h
        rw [← h.2]
        exact frameIntact_refl g
      | some card =>
        rw [hc] at h
        simp only at h
        cases ht : g.top_card with
        | none => rw [ht] at h; cases h
        | some top =>
          rw [ht] at h
          simp only at h
          by_cases hplay : card.is_playable_on top = true
          · rw [if_pos hplay] at h
            simp only [Option.some.injEq, Prod.mk.injEq] at h
            rw [← h.2]
            exact frameIntact_set g _ player
              (Player.mk player.name (player.cards.eraseIdx i)) hp rfl rfl rfl rfl
          · rw [if_neg hplay] at h
            simp only [Option.some.injEq, Prod.mk.injEq] at h
            rw [← h.2]
            exact frameIntact_refl g
  · intro res g' h
    unfold Game.draw_one at h
    simp only at h
    cases ht : g.top_card with
    | none => rw [ht] at h; cases h
    | some top =>
      rw [ht] at h
      simp only at h
      by_cases hplay : (g.deck.draw.1).is_playable_on top = true
      · rw [if_pos hplay] at h
        simp only [Option.some.injEq, Prod.mk.injEq] at h
        rw [← h.2]
        exact frameIntact_same g _ rfl rfl rfl
      · rw [if_neg hplay] at h
        cases hp : g.players[g.current_player_idx]? with
        | none => rw [hp] at h; cases h
        | some player =>
          rw [hp] at h
          simp only [Option.some.injEq, Prod.mk.injEq] at h
          rw [← h.2]
          exact frameIntact_set g _ player
            (Player.mk player.name (player.cards ++ [g.deck.draw.1])) hp rfl rfl rfl rfl
  · intro n g' h
    unfold Game.draw_multiple at h
    cases hp : g.players[g.current_player_idx]? with
    | none => rw [hp] at h; cases h
    | some player =>
      rw [hp] at h
      simp only [Option.some.injEq] at h
      rw [← h]
      exact frameIntact_set g _ player
        (Player.mk player.name (player.cards ++ (g.deck.drawN n).1)) hp rfl rfl rfl rfl
  · intro c
    obtain ⟨hpl, hidx, hrev⟩ := set_wildcard_color_players g c
    exact ⟨hpl, frameIntact_same g _ hidx hrev hpl,
           set_wildcard_color_top_type g c,
           fun t ht h1 h2 => set_wildcard_color_eq_of_not_wild g c t ht h1 h2⟩

/-- Witness for C10: `set_wildcard_color` on a `Number` top card is the
identity. -/
theorem C10_witness :
    (Game.mk [Player.mk "A" [], Player.mk "B" []]
        0 false (InfiniteDeck.mk (fun _ => 0) 0)
        (some (Card.mk (CardType.Number 5) Color.Blue))).set_wildcard_color Color.Red =
      Game.mk [Player.mk "A" [], Player.mk "B" []]
        0 false (InfiniteDeck.mk (fun _ => 0) 0)
        (some (Card.mk (CardType.Number 5) Color.Blue)) :=
  ((C10_frame_effects
      (Game.mk [Player.mk "A" [], Player.mk "B" []]
        0 false (InfiniteDeck.mk (fun _ => 0) 0)
        (some (Card.mk (CardType.Number 5) Color.Blue)))).2.2.2
    Color.Red).2.2.2
    (Card.mk (CardType.Number 5) Color.Blue) rfl (by decide) (by decide)

/-- Skipping zero samples is the identity. -/
theorem InfiniteDeck.after_zero (d : InfiniteDeck) : d.after 0 = d := by
  cases d
  simp [InfiniteDeck.after]

/-- Skipping composes additively. -/
theorem InfiniteDeck.after_after (d : InfiniteDeck) (a b : Nat) :
    (d.after a).after b = d.after (a + b) := by
  simp [InfiniteDeck.after, Nat.add_assoc]

/-- Drawing advances the deck by one sample. -/
theorem InfiniteDeck.draw_snd (d : InfiniteDeck) : d.draw.2 = d.after 1 := by
  cases d
  simp [InfiniteDeck.draw, InfiniteDeck.after]

/-- Drawing `n` cards advances the deck by `n` samples. -/
theorem InfiniteDeck.drawN_snd (n : Nat) :
    ∀ d : InfiniteDeck, (d.drawN n).2 = d.after n := by
  induction n with
  | zero =>
    intro d
    simp [InfiniteDeck.drawN, InfiniteDeck.after_zero]
  | succ m ih =>
    intro d
    have h1 : d.draw.2 = d.after 1 := InfiniteDeck.draw_snd d
    calc (d.drawN (m + 1)).2 = (d.draw.2.drawN m).2 := rfl
      _ = d.draw.2.after m := ih d.draw.2
      _ = (d.after 1).after m := by rw [h1]
      _ = d.after (m + 1) := by rw [InfiniteDeck.after_after, Nat.add_comm]

/-- Drawing `n` cards yields exactly `n` cards. -/
theorem InfiniteDeck.drawN_length (n : Nat) :
    ∀ d : InfiniteDeck, (d.drawN n).1.length = n := by
  induction n with
  | zero => intro d; rfl
  | succ m ih =>
    intro d
    calc (d.drawN (m + 1)).1.length = (d.draw.2.drawN m).1.length + 1 := rfl
      _ = m + 1 := by rw [ih d.draw.2]

/-- Unfolding equation for `dealAll` on a non-empty player list. -/
theorem dealAll_cons (q : Player) (rest : List Player) (d : InfiniteDeck) :
    dealAll (q :: rest) d =
      (Player.mk q.name (q.cards ++ (d.drawN 7).1) :: (dealAll rest (d.drawN 7).2).1,
       (dealAll rest (d.drawN 7).2).2) :=
  rfl

/-- The deal loop consumes `7 · (number of players)` samples, keeps the
player count, and gives player `i` exactly the 7 consecutive cards
starting at sample offset `7 · i`, appended to their existing hand. -/
theorem dealAll_spec (players : List Player) :
    ∀ d : InfiniteDeck,
      (dealAll players d).2 = d.after (7 * players.length) ∧
      (dealAll players d).1.length = players.length ∧
      (∀ (i : Nat) (p : Player), players[i]? = some p →
        (dealAll players d).1[i]? =
          some (Player.mk p.name (p.cards ++ ((d.after (7 * i)).drawN 7).1))) := by
  induction players with
  | nil =>
    intro d
    refine ⟨by simp [dealAll, InfiniteDeck.after_zero], rfl, ?_⟩
    intro i p hp
    simp at hp
  | cons q rest ih =>
    intro d
    have hsnd : (d.drawN 7).2 = d.after 7 := InfiniteDeck.drawN_snd 7 d
    obtain ⟨ih1, ih2, ih3⟩ := ih (d.after 7)
    refine ⟨?_, ?_, ?_⟩
    · simp only [dealAll_cons, hsnd, ih1, InfiniteDeck.after_after, List.length_cons]
      congr 1
      ring
    · simp only [dealAll_cons, List.length_cons, hsnd, ih2]
    · intro i p hp
      cases i with
      | zero =>
        have hq : q = p := by simpa using hp
        simp only [dealAll_cons, List.getElem?_cons_zero, Option.some.injEq,
          Nat.mul_zero, InfiniteDeck.after_zero, ← hq]
      | succ j =>
        have hp' : rest[j]? = some p := by simpa using hp
        have harith : 7 + 7 * j = 7 * (j + 1) := by ring
        simp only [dealAll_cons, List.getElem?_cons_succ, hsnd]
        rw [ih3 j p hp', InfiniteDeck.after_after, harith]

/-- The top-card loop never returns a `DrawFourWildcard`. -/
theorem drawTopCard_ne_d4w :
    ∀ (fuel : Nat) (d d' : InfiniteDeck) (card : Card),
      drawTopCard d fuel = some (card, d') →
      card.card_type ≠ CardType.DrawFourWildcard := by
  intro fuel
  induction fuel with
  | zero => intro d d' card h; cases h
  | succ n ih =>
    intro d d' card h
    unfold drawTopCard at h
    simp only at h
    by_cases hw : d.draw.1.card_type = CardType.DrawFourWildcard
    · rw [if_pos hw] at h
      exact ih d.draw.2 d' card h
    · rw [if_neg hw] at h
      simp only [Option.some.injEq, Prod.mk.injEq] at h
      rw [← h.1]
      exact hw

/-- Full characterization of a non-panicking `Game::start` from an unset
top card: hands dealt in order, starting index from the RNG sample,
direction untouched, and a non-`DrawFourWildcard` top card. -/
theorem game_start_some_spec (g0 : Game) (r fuel : Nat) (g : Game)
    (htop : g0.top_card = none)
    (h : g0.start r fuel = some g) :
    g.players.length = g0.players.length ∧
    (∀ (i : Nat) (p : Player), g0.players[i]? = some p →
       g.players[i]? =
         some (Player.mk p.name (p.cards ++ ((g0.deck.after (7 * i)).drawN 7).1))) ∧
    g.current_player_idx = r % g0.players.length ∧
    (∃ top, g.top_card = some top ∧ top.card_type ≠ CardType.DrawFourWildcard) ∧
    g.turn_direction_reversed = g0.turn_direction_reversed := by
  obtain ⟨hda1, hda2, hda3⟩ := dealAll_spec g0.players g0.deck
  unfold Game.start at h
  rw [htop] at h
  simp only [topCardLoop] at h
  cases htc : drawTopCard (dealAll g0.players g0.deck).2 fuel with
  | none => rw [htc] at h; cases h
  | some pr =>
    obtain ⟨top, d''⟩ := pr
    rw [htc] at h
    simp only [Option.some.injEq] at h
    subst h
    refine ⟨hda2, ?_, ?_, ⟨top, rfl, drawTopCard_ne_d4w fuel _ _ top htc⟩, rfl⟩
    · intro i p hp
      exact hda3 i p hp
    · show gen_range r (dealAll g0.players g0.deck).1.length = r % g0.players.length
      rw [gen_range, hda2]

/-- C2: `Lobby::start` errors with `NotEnoughPlayers` on fewer than two
players; on success every player keeps their registration position and
name, receives the 7 consecutive cards dealt at their position (hence a
7-card hand when starting from an empty one), the starting index is the
RNG sample reduced modulo the player count (hence valid), and the top
card is never a `DrawFourWildcard`. -/
theorem C2_lobby_start (l : Lobby) (d : InfiniteDeck) (r fuel : Nat) :
    (l.players.length < 2 → l.start d r fuel = Except.error NotEnoughPlayers.mk) ∧
    (∀ g : Game, l.start d r fuel = Except.ok (some g) →
       2 ≤ l.players.length ∧
       g.players.length = l.players.length ∧
       (∀ (i : Nat) (p : Player), l.players[i]? = some p →
          g.players[i]? =
            some (Player.mk p.name (p.cards ++ ((d.after (7 * i)).drawN 7).1)) ∧
          (p.cards = [] → (g.players[i]?).map Player.number_of_cards = some 7)) ∧
       g.current_player_idx = r % l.players.length ∧
       g.current_player_idx < l.players.length ∧
       (∃ top, g.top_card = some top ∧ top.card_type ≠ CardType.DrawFourWildcard)) := by
  constructor
  · intro hlt
    unfold Lobby.start
    rw [if_pos hlt]
  · intro g h
    unfold Lobby.start at h
    by_cases hlt : l.players.length < 2
    · rw [if_pos hlt] at h
      cases h
    · rw [if_neg hlt] at h
      simp only [Except.ok.injEq] at h
      obtain ⟨hlen, hhand, hidx, ⟨top, htop, hd4⟩, _⟩ :=
        game_start_some_spec _ r fuel g rfl h
      have hN : 2 ≤ l.players.length := Nat.le_of_not_lt hlt
      have hpos : 0 < l.players.length := Nat.lt_of_lt_of_le (by omega) hN
      refine ⟨hN, hlen, ?_, hidx, ?_, top, htop, hd4⟩
      · intro i p hp
        have hg := hhand i p hp
        refine ⟨hg, ?_⟩
        intro hempty
        rw [hg]
        simp [Player.number_of_cards, hempty, InfiniteDeck.drawN_length]
      · rw [hidx]
        exact Nat.mod_lt r hpos

/-- Witness for C2: the concrete two-player start succeeds and yields a
valid starting index. -/
theorem C2_witness :
    lobbyW.start deckW 0 1 = Except.ok (some gameW) ∧
    gameW.current_player_idx < lobbyW.players.length :=
  ⟨rfl, ((C2_lobby_start lobbyW deckW 0 1).2 gameW rfl).2.2.2.2.1⟩

/-- `play` preserves whether a top card is set. -/
theorem play_top_isSome (g : Game) (i : Nat) (res : Except PlayError Unit) (g' : Game)
    (h : g.play i = some (res, g')) :
    g'.top_card.isSome = g.top_card.isSome := by
  unfold Game.play at h
  cases hp : g.players[g.current_player_idx]? with
  | none => rw [hp] at h; cases h
  | some player =>
    rw [hp] at h
    simp only at h
    cases hc : player.cards[i]? with
    | none =>
      rw [hc] at h
      simp only [Option.some.injEq, Prod.mk.injEq] at h
      rw [← h.2]
    | some card =>
      rw [hc] at h
      simp only at h
      cases ht : g.top_card with
      | none => rw [ht] at h; cases h
      | some top =>
        rw [ht] at h
        simp only at h
        by_cases hplay : card.is_playable_on top = true
        · rw [if_pos hplay] at h
          simp only [Option.some.injEq, Prod.mk.injEq] at h
          rw [← h.2]
          rfl
        · rw [if_neg hplay] at h
          simp only [Option.some.injEq, Prod.mk.injEq] at h
          rw [← h.2, ht]

/-- `draw_one` preserves whether a top card is set. -/
theorem draw_one_top_isSome (g : Game) (res : Option Card) (g' : Game)
    (h : g.draw_one = some (res, g')) :
    g'.top_card.isSome = g.top_card.isSome := by
  unfold Game.draw_one at h
  simp only at h
  cases ht : g.top_card with
  | none => rw [ht] at h; cases h
  | some top =>
    rw [ht] at h
    simp only at h
    by_cases hplay : (g.deck.draw.1).is_playable_on top = true
    · rw [if_pos hplay] at h
      simp only [Option.some.injEq, Prod.mk.injEq] at h
      rw [← h.2]
      rfl
    · rw [if_neg hplay] at h
      cases hp : g.players[g.current_player_idx]? with
      | none => rw [hp] at h; cases h
      | some player =>
        rw [hp] at h
        simp only [Option.some.injEq, Prod.mk.injEq] at h
        rw [← h.2]

/-- `draw_multiple` never touches the top card. -/
theorem draw_multiple_top (g : Game) (n : Nat) (g' : Game)
    (h : g.draw_multiple n = some g') :
    g'.top_card = g.top_card := by
  unfold Game.draw_multiple at h
  cases hp : g.players[g.current_player_idx]? with
  | none => rw [hp] at h; cases h
  | some player =>
    rw [hp] at h
    simp only [Option.some.injEq] at h
    rw [← h]

/-- `set_wildcard_color` preserves whether a top card is set. -/
theorem set_wildcard_color_top_isSome (g : Game) (c : Color) :
    (g.set_wildcard_color c).top_card.isSome = g.top_card.isSome := by
  have h := set_wildcard_color_top_type g c
  cases ht : g.top_card with
  | none =>
    rw [ht] at h
    cases htc : (g.set_wildcard_color c).top_card with
    | none => rfl
    | some t => rw [htc] at h; cases h
  | some t =>
    rw [ht] at h
    cases htc : (g.set_wildcard_color c).top_card with
    | none => rw [htc] at h; cases h
    | some t' => rfl

/-- Every driver operation preserves whether a top card is set. -/
theorem applyOp_top_isSome (g : Game) (op : Op) (g' : Game)
    (h : applyOp g op = some g') :
    g'.top_card.isSome = g.top_card.isSome := by
  cases op with
  | play i =>
    simp only [applyOp] at h
    cases hpl : g.play i with
    | none => rw [hpl] at h; cases h
    | some pr =>
      rw [hpl] at h
      simp only [Option.map_some', Option.some.injEq] at h
      subst h
      exact play_top_isSome g i pr.1 pr.2 (by rw [hpl])
  | draw_one =>
    simp only [applyOp] at h
    cases hpl : g.draw_one with
    | none => rw [hpl] at h; cases h
    | some pr =>
      rw [hpl] at h
      simp only [Option.map_some', Option.some.injEq] at h
      subst h
      exact draw_one_top_isSome g pr.1 pr.2 (by rw [hpl])
  | draw_multiple n =>
    simp only [applyOp] at h
    rw [draw_multiple_top g n g' h]
  | next_turn =>
    simp only [applyOp, Option.some.injEq] at h
    subst h
    rfl
  | reverse =>
    simp only [applyOp, Option.some.injEq] at h
    subst h
    rfl
  | set_wildcard_color c =>
    simp only [applyOp, Option.some.injEq] at h
    subst h
    exact set_wildcard_color_top_isSome g c

/-- Running any operation sequence preserves a set top card. -/
theorem runOps_top_isSome (ops : List Op) :
    ∀ g g' : Game, runOps g ops = some g' →
      g.top_card.isSome = true → g'.top_card.isSome = true := by
  induction ops with
  | nil =>
    intro g g' h ht
    simp only [runOps, Option.some.injEq] at h
    subst h
    exact ht
  | cons op rest ih =>
    intro g g' h ht
    unfold runOps at h
    cases ha : applyOp g op with
    | none => rw [ha] at h; cases h
    | some g1 =>
      rw [ha] at h
      simp only at h
      exact ih g1 g' h (by rw [applyOp_top_isSome g op g1 ha]; exact ht)

/-- C6: in every state reached from a successful `Lobby::start` by any
sequence of `play`, `draw_one`, `draw_multiple`, `next_turn`, `reverse`
and `set_wildcard_color`, the top card is set, so the `unwrap` behind
`top_card()` (and inside `play`) cannot panic after start. -/
theorem C6_top_card_always_set (l : Lobby) (d : InfiniteDeck) (r fuel : Nat)
    (ops : List Op) (g g' : Game)
    (hstart : l.start d r fuel = Except.ok (some g))
    (hrun : runOps g ops = some g') :
    g'.top_card.isSome = true := by
  have hg : g.top_card.isSome = true := by
    unfold Lobby.start at hstart
    by_cases hlt : l.players.length < 2
    · rw [if_pos hlt] at hstart; cases hstart
    · rw [if_neg hlt] at hstart
      simp only [Except.ok.injEq] at hstart
      obtain ⟨-, -, -, ⟨top, htop, -⟩, -⟩ :=
        game_start_some_spec _ r fuel g rfl hstart
      rw [htop]
      rfl
  exact runOps_top_isSome ops g g' hrun hg

/-- Witness for C6: the concrete start plus a two-operation run keeps
the top card set. -/
theorem C6_witness :
    runOps gameW [Op.next_turn, Op.draw_one] = some gameW2 ∧
    gameW2.top_card.isSome = true :=
  ⟨rfl, C6_top_card_always_set lobbyW deckW 0 1 [Op.next_turn, Op.draw_one]
    gameW gameW2 rfl rfl⟩

end Uno
